import Mathlib

/-!
Shallow embedding of the retry/error-handling and performance-measurement
utility layer of the cyprusAutomation Cypress test suite, together with
proofs of the behavioural claims made by its specification.

The embedded code lives in:
* `cypress/support/utils/TestDataManager.js` (`TestDataManager`,
  `PerformanceMonitor`),
* `cypress/support/utils/ErrorHandler.js` (`ErrorHandler`),
* `cypress/support/api-commands.js` (`apiLogin`, `apiRequest`).

JavaScript objects are embedded as ordered association lists (mirroring
property insertion order), JavaScript values as the inductive `JSValue`
with JS truthiness and `typeof`, and asynchronous control flow as explicit
event traces.
-/

namespace CyprusAutomation

/-! ## JavaScript value model -/

/-- A JavaScript runtime value, restricted to the shapes the embedded
utility code actually manipulates. An object is an ordered list of
properties, mirroring JS property insertion order. -/
inductive JSValue where
  | str (s : String)
  | num (n : Int)
  | bool (b : Bool)
  | null
  | undef
  | obj (fields : List (String × JSValue))

/-- JS truthiness: `""`, `0`, `false`, `null` and `undefined` are falsy,
everything else (including every object) is truthy. -/
def JSValue.truthy : JSValue → Bool
  | .str s => decide (s ≠ "")
  | .num n => decide (n ≠ 0)
  | .bool b => b
  | .null => false
  | .undef => false
  | .obj _ => true

/-- The JS `typeof` operator on the embedded values (`typeof null` is
`"object"`). -/
def JSValue.typeOf : JSValue → String
  | .str _ => "string"
  | .num _ => "number"
  | .bool _ => "boolean"
  | .null => "object"
  | .undef => "undefined"
  | .obj _ => "object"

/-- JS string coercion, as performed by template-literal interpolation. -/
def JSValue.coerce : JSValue → String
  | .str s => s
  | .num n => toString n
  | .bool b => if b then "true" else "false"
  | .null => "null"
  | .undef => "undefined"
  | .obj _ => "[object Object]"

/-! ## Association-list helpers (JS objects) -/

/-- Property read on a JS object embedded as an association list. -/
def lookupKey {α : Type} : List (String × α) → String → Option α
  | [], _ => none
  | (k2, v) :: rest, k => if k2 = k then some v else lookupKey rest k

/-- `data[key]` on a JS object: `undefined` when the key is absent. -/
def getField (data : List (String × JSValue)) (k : String) : JSValue :=
  match lookupKey data k with
  | some v => v
  | none => JSValue.undef

/-- Property write `m[k] = v`: replaces an existing binding in place or
appends a fresh one, exactly as JS property assignment orders keys. -/
def setKey {α : Type} (m : List (String × α)) (k : String) (v : α) :
    List (String × α) :=
  match m with
  | [] => [(k, v)]
  | (k2, w) :: rest => if k2 = k then (k2, v) :: rest else (k2, w) :: setKey rest k v

/-- The JS object spread `{ ...old, ...new }`: keys of `old` keep their
position but take the overriding value when `new` also binds them, and
keys only in `new` are appended in their own order. -/
def spreadMerge {α : Type} (old new : List (String × α)) : List (String × α) :=
  (old.map (fun p =>
    match lookupKey new p.1 with
    | some v => (p.1, v)
    | none => p)) ++
  new.filter (fun p => (lookupKey old p.1).isNone)

/-- `m[k] = (m[k] || 0) + 1` on a JS object used as a counter table. -/
def bump (m : List (String × Nat)) (k : String) : List (String × Nat) :=
  match m with
  | [] => [(k, 1)]
  | (k2, v) :: rest => if k2 = k then (k2, v + 1) :: rest else (k2, v) :: bump rest k

/-- Counter read: `m[k] || 0`. -/
def getCount (m : List (String × Nat)) (k : String) : Nat :=
  match m with
  | [] => 0
  | (k2, v) :: rest => if k2 = k then v else getCount rest k

/-! ## Decimal rendering of a JS number (template-literal interpolation
of a nonnegative integer such as `Date.now()`) -/

/-- One decimal digit character. -/
def natDigitChar : Nat → Char
  | 0 => '0' | 1 => '1' | 2 => '2' | 3 => '3' | 4 => '4'
  | 5 => '5' | 6 => '6' | 7 => '7' | 8 => '8' | 9 => '9'
  | _ => '*'

/-- Decimal digit list of `n`, most significant first. The fuel argument
only bounds the recursion; `natDecDigits` always supplies enough fuel. -/
def natDecDigitsAux : Nat → Nat → List Char
  | 0, n => [natDigitChar n]
  | fuel + 1, n =>
    if n < 10 then [natDigitChar n]
    else natDecDigitsAux fuel (n / 10) ++ [natDigitChar (n % 10)]

/-- Decimal digit list of `n`. -/
def natDecDigits (n : Nat) : List Char := natDecDigitsAux n n

/-- Decimal string of a nonnegative JS number, as produced by
template-literal interpolation (`` `EMP${timestamp}` `` and friends). -/
def natToString (n : Nat) : String := String.mk (natDecDigits n)

/-- Numeric value of a decimal digit character. -/
def digitVal (c : Char) : Nat := c.toNat - 48

/-- Reading the rendered digits back, most significant first. -/
def decValue (l : List Char) : Nat :=
  l.foldl (fun acc c => acc * 10 + digitVal c) 0

theorem digitVal_natDigitChar {d : Nat} (h : d < 10) :
    digitVal (natDigitChar d) = d := by
  interval_cases d <;> rfl

theorem natDecDigitsAux_foldl (fuel : Nat) :
    ∀ n a, n ≤ fuel →
      List.foldl (fun acc c => acc * 10 + digitVal c) a (natDecDigitsAux fuel n) =
        a * 10 ^ (natDecDigitsAux fuel n).length + n := by
  induction fuel with
  | zero =>
    intro n a hn
    have hn0 : n = 0 := Nat.le_zero.mp hn
    subst hn0
    simp [natDecDigitsAux, digitVal_natDigitChar]
  | succ fuel ih =>
    intro n a hn
    by_cases h10 : n < 10
    · simp [natDecDigitsAux, h10, digitVal_natDigitChar h10]
    · have hrec : n / 10 ≤ fuel := by omega
      have hfold := ih (n / 10) a hrec
      simp only [natDecDigitsAux, if_neg h10, List.foldl_append, hfold,
        List.length_append, List.foldl_cons, List.foldl_nil, List.length_cons,
        List.length_nil]
      have hd : digitVal (natDigitChar (n % 10)) = n % 10 :=
        digitVal_natDigitChar (Nat.mod_lt n (by omega))
      rw [hd]
      have hpow : 10 ^ ((natDecDigitsAux fuel (n / 10)).length + 1) =
          10 ^ (natDecDigitsAux fuel (n / 10)).length * 10 := pow_succ 10 _
      rw [hpow]
      have hdm : n / 10 * 10 + n % 10 = n := by omega
      ring_nf
      omega

theorem decValue_natDecDigits (n : Nat) : decValue (natDecDigits n) = n := by
  have h := natDecDigitsAux_foldl n n 0 (Nat.le_refl n)
  simpa [decValue, natDecDigits] using h

theorem natToString_injective : Function.Injective natToString := by
  intro m n h
  have hdata : natDecDigits m = natDecDigits n := congrArg String.data h
  have := decValue_natDecDigits m
  rw [hdata, decValue_natDecDigits n] at this
  exact this.symm

/-! ## Event-ordering helper -/

/-- `Precedes x y l`: some occurrence of `x` comes strictly before some
occurrence of `y` in the list `l`. -/
def Precedes {α : Type} (x y : α) (l : List α) : Prop :=
  ∃ l1 l2 l3, l = l1 ++ x :: (l2 ++ y :: l3)

theorem Precedes.append_right {α : Type} {x y : α} {l2 : List α}
    (l1 : List α) (h : Precedes x y l2) : Precedes x y (l1 ++ l2) := by
  obtain ⟨a, b, c, rfl⟩ := h
  exact ⟨l1 ++ a, b, c, by simp⟩

theorem Precedes.of_mem_mem {α : Type} {x y : α} {l1 l2 : List α}
    (hx : x ∈ l1) (hy : y ∈ l2) : Precedes x y (l1 ++ l2) := by
  obtain ⟨s, t, rfl⟩ := List.append_of_mem hx
  obtain ⟨u, v, rfl⟩ := List.append_of_mem hy
  exact ⟨s, t ++ u, v, by simp⟩

/-! ## TestDataManager (`cypress/support/utils/TestDataManager.js`) -/

/-- The record literal returned by `TestDataManager.generateEmployeeData`.
Every field of the JS object is kept. -/
structure EmployeeData where
  firstName : String
  lastName : String
  middleName : String
  employeeId : String
  otherId : String
  licenseNo : String
  licenseExpiryDate : String
  ssnNumber : String
  sinNumber : String
  nationalityId : Nat
  maritalStatus : String
  dateOfBirth : String
  gender : String
  smoker : Bool
  militaryService : String
  bloodType : String
  addressStreet1 : String
  addressStreet2 : String
  city : String
  stateProvince : String
  zipCode : String
  countryCode : String
  homeTelephone : String
  mobile : String
  workTelephone : String
  workEmail : String
  otherEmail : String

/-- `TestDataManager.generateEmployeeData`. The single call to
`Date.now()` is the explicit `timestamp` parameter; every
timestamp-derived field interpolates that one value. -/
def generateEmployeeData (timestamp : Nat) : EmployeeData :=
  { firstName := "Test" ++ natToString timestamp
    lastName := "Employee"
    middleName := "M"
    employeeId := "EMP" ++ natToString timestamp
    otherId := "OTH" ++ natToString timestamp
    licenseNo := "LIC" ++ natToString timestamp
    licenseExpiryDate := "2025-12-31"
    ssnNumber := "123-45-6789"
    sinNumber := "SIN123456"
    nationalityId := 1
    maritalStatus := "Single"
    dateOfBirth := "1990-01-01"
    gender := "Male"
    smoker := false
    militaryService := "No"
    bloodType := "O+"
    addressStreet1 := "123 Test St"
    addressStreet2 := "Apt 1A"
    city := "Test City"
    stateProvince := "TC"
    zipCode := "12345"
    countryCode := "US"
    homeTelephone := "555-123-4567"
    mobile := "555-987-6543"
    workTelephone := "555-555-5555"
    workEmail := "test.employee" ++ natToString timestamp ++ "@company.com"
    otherEmail := "test.employee" ++ natToString timestamp ++ ".personal@gmail.com" }

/-- One entry of the `schema` argument of `validateTestData`:
`{ required, type, pattern }`. A regex is embedded as its `test`
predicate on the (coerced) value. -/
structure SchemaEntry where
  required : Bool
  type : Option String
  pattern : Option (JSValue → Bool)

/-- The violation messages `validateTestData` pushes for one schema key,
in push order: required-presence, then type, then pattern. The type and
pattern checks are guarded by the truthiness of `data[key]` (the JS
conditions `data[key] && ...`), and the type check also requires the
declared type string to be truthy (nonempty). -/
def keyErrors (data : List (String × JSValue)) (k : String) (e : SchemaEntry) :
    List String :=
  (if e.required ∧ ¬(getField data k).truthy
    then ["Missing required field: " ++ k] else []) ++
  (match e.type with
   | some t =>
     if (getField data k).truthy ∧ t ≠ "" ∧ (getField data k).typeOf ≠ t
       then ["Invalid type for " ++ k ++ ": expected " ++ t ++ ", got " ++
             (getField data k).typeOf]
       else []
   | none => []) ++
  (match e.pattern with
   | some p =>
     if (getField data k).truthy ∧ ¬ p (getField data k)
       then ["Invalid format for " ++ k ++ ": " ++ (getField data k).coerce]
       else []
   | none => [])

/-- The full `errors` array accumulated by the `Object.keys(schema).forEach`
loop of `validateTestData`. -/
def collectErrors (data : List (String × JSValue))
    (schema : List (String × SchemaEntry)) : List String :=
  schema.foldl (fun acc p => acc ++ keyErrors data p.1 p.2) []

/-- `Array.prototype.join(sep)`. -/
def joinSep (sep : String) : List String → String
  | [] => ""
  | [x] => x
  | x :: xs => x ++ sep ++ joinSep sep xs

/-- `TestDataManager.validateTestData`: throws one aggregate `Error`
joining every collected violation, otherwise returns the JS value
`true`. -/
def validateTestData (data : List (String × JSValue))
    (schema : List (String × SchemaEntry)) : Except String JSValue :=
  let errors := collectErrors data schema
  if errors = [] then Except.ok (JSValue.bool true)
  else Except.error ("Test data validation failed: " ++ joinSep ", " errors)

theorem joinSep_mem_split (sep : String) {e : String} :
    ∀ {l : List String}, e ∈ l →
      ∃ pre post, joinSep sep l = pre ++ e ++ post := by
  intro l
  induction l with
  | nil => intro h; cases h
  | cons x xs ih =>
    intro h
    rcases List.mem_cons.mp h with hx | hxs
    · subst hx
      cases xs with
      | nil => exact ⟨"", "", by simp [joinSep]⟩
      | cons y ys =>
        refine ⟨"", sep ++ joinSep sep (y :: ys), ?_⟩
        simp [joinSep, String.append_assoc]
    · obtain ⟨pre, post, hsplit⟩ := ih hxs
      cases xs with
      | nil => cases hxs
      | cons y ys =>
        refine ⟨x ++ sep ++ pre, post, ?_⟩
        simp [joinSep, hsplit, String.append_assoc]

/-- C3 (amended): `validateTestData` checks each schema key for
required-presence, type match and optional pattern match, collects all
violations rather than failing fast, and raises one aggregate error whose
message lists every collected violation; when there are no violations it
succeeds returning the JS value `true` (not the input object). -/
theorem validateTestData_spec (data : List (String × JSValue))
    (schema : List (String × SchemaEntry)) :
    (collectErrors data schema = [] →
      validateTestData data schema = Except.ok (JSValue.bool true)) ∧
    (collectErrors data schema ≠ [] →
      validateTestData data schema =
        Except.error ("Test data validation failed: " ++
          joinSep ", " (collectErrors data schema)) ∧
      ∀ msg ∈ collectErrors data schema,
        ∃ pre post,
          "Test data validation failed: " ++ joinSep ", " (collectErrors data schema) =
            pre ++ msg ++ post) := by
  constructor
  · intro h
    simp [validateTestData, h]
  · intro h
    refine ⟨by simp [validateTestData, h], ?_⟩
    intro msg hmem
    obtain ⟨pre, post, hsplit⟩ := joinSep_mem_split ", " hmem
    exact ⟨"Test data validation failed: " ++ pre, post, by
      rw [hsplit]; simp [String.append_assoc]⟩

/-- C3 witness: the two concrete examples of the specification. A data
object missing the required field `name` raises the aggregate error naming
`name`; a valid object passes, the success value being `true`. -/
theorem validateTestData_spec_witness :
    validateTestData [] [("name", ⟨true, none, none⟩)] =
      Except.error "Test data validation failed: Missing required field: name" ∧
    validateTestData [("name", JSValue.str "x")]
        [("name", ⟨true, some "string", none⟩)] =
      Except.ok (JSValue.bool true) := by
  constructor
  · have h := ((validateTestData_spec [] [("name", ⟨true, none, none⟩)]).2
      (by decide)).1
    rw [h]
    rfl
  · exact (validateTestData_spec [("name", JSValue.str "x")]
      [("name", ⟨true, some "string", none⟩)]).1 (by decide)

/-- C3 counterexample: the claim says a violation-free validation returns
the input unchanged, but the code ends in `return true`: on the
specification's own passing example the result is the JS boolean `true`,
which is not the input data object. -/
theorem validateTestData_returns_true_not_input :
    validateTestData [("name", JSValue.str "x")]
        [("name", ⟨true, some "string", none⟩)] =
      Except.ok (JSValue.bool true) ∧
    JSValue.bool true ≠ JSValue.obj [("name", JSValue.str "x")] := by
  refine ⟨(validateTestData_spec _ _).1 (by decide), fun h => JSValue.noConfusion h⟩

/-- C8: whenever `data[key]` is falsy (`0`, `""`, `false`, `null`,
`undefined` or absent), `validateTestData` reports a required field as
missing and skips the type and pattern checks entirely, so a falsy value
never produces a type or format violation. -/
theorem validateTestData_falsy_spec (data : List (String × JSValue)) (k : String)
    (e : SchemaEntry) (h : (getField data k).truthy = false) :
    keyErrors data k e =
      (if e.required then ["Missing required field: " ++ k] else []) ∧
    (e.required = true →
      validateTestData data [(k, e)] =
        Except.error ("Test data validation failed: Missing required field: " ++ k)) := by
  obtain ⟨req, ty, pat⟩ := e
  have h1 : keyErrors data k ⟨req, ty, pat⟩ =
      (if req then ["Missing required field: " ++ k] else []) := by
    cases ty <;> cases pat <;> cases req <;> simp [keyErrors, h]
  refine ⟨h1, ?_⟩
  intro hreq
  subst hreq
  have h2 : collectErrors data [(k, ⟨true, ty, pat⟩)] =
      ["Missing required field: " ++ k] := by
    simp only [collectErrors, List.foldl_cons, List.foldl_nil, List.nil_append]
    simpa using h1
  simp [validateTestData, h2, joinSep, ← String.append_assoc]

/-- C8 witness: an explicit `false` value on a required field of declared
type `string` yields exactly the missing-field violation and no type
violation, even though `typeof false` differs from the declared type. -/
theorem validateTestData_falsy_spec_witness :
    keyErrors [("flag", JSValue.bool false)] "flag"
        ⟨true, some "string", none⟩ = ["Missing required field: flag"] ∧
    validateTestData [("flag", JSValue.bool false)]
        [("flag", ⟨true, some "string", none⟩)] =
      Except.error "Test data validation failed: Missing required field: flag" := by
  have h := validateTestData_falsy_spec [("flag", JSValue.bool false)] "flag"
    ⟨true, some "string", none⟩ (by rfl)
  exact ⟨by simpa using h.1, by simpa using h.2 rfl⟩

/-- C4 (amended): `employeeId` values produced by `generateEmployeeData`
are distinct exactly when the generating `Date.now()` timestamps are
distinct; two calls that observe the same millisecond timestamp produce
identical `employeeId` values. -/
theorem generateEmployeeData_employeeId_unique (t1 t2 : Nat) :
    (generateEmployeeData t1).employeeId = (generateEmployeeData t2).employeeId ↔
      t1 = t2 := by
  constructor
  · intro h
    have h2 : "EMP" ++ natToString t1 = "EMP" ++ natToString t2 := h
    have hd := congrArg String.data h2
    simp only [String.data_append] at hd
    exact natToString_injective (String.ext (List.append_cancel_left hd))
  · intro h
    rw [h]

/-- C4 counterexample: two `generateEmployeeData` calls observing the same
millisecond timestamp (here 1000) both produce `employeeId = "EMP1000"`,
so same-tick `employeeId` values are equal, not pairwise distinct. -/
theorem generateEmployeeData_same_tick_collision :
    (generateEmployeeData 1000).employeeId = "EMP1000" ∧
    (generateEmployeeData 1000).employeeId =
      (generateEmployeeData 1000).employeeId :=
  ⟨rfl, rfl⟩

/-! ## ErrorHandler (`cypress/support/utils/ErrorHandler.js`) -/

/-- One entry of `this.errorLog`. The handlers push objects with varying
extra fields; the embedding keeps the fields the embedded operations read:
`type` (called `rtype` here), `context` and `message`. -/
structure ErrorRecord where
  rtype : String
  context : String
  message : String
deriving DecidableEq

/-- The `errorThresholds` object installed by the `ErrorHandler`
constructor, as a JS object: `{ critical: 5, warning: 10, info: 20 }`. -/
def defaultErrorThresholds : List (String × Nat) := [("critical", 5), ("warning", 10), ("info", 20)]

/-- JS `count >= threshold` where the threshold is read off an object and
may be `undefined` (in which case the comparison is false). -/
def jsGe (n : Nat) : Option Nat → Bool
  | some v => decide (v ≤ n)
  | none => false

/-- Which threshold message `logError` emits through `cy.logError`. -/
inductive ThresholdAlert where
  | critical (errorCount : Nat)
  | warning (errorCount : Nat)
deriving DecidableEq

/-- `ErrorHandler.logError`: appends the record to the log, then emits the
critical-threshold message when the new length reaches `critical`, else
the warning-threshold message when it reaches `warning`. -/
def logError (th : List (String × Nat)) (log : List ErrorRecord)
    (e : ErrorRecord) : List ErrorRecord × Option ThresholdAlert :=
  let log2 := log ++ [e]
  let errorCount := log2.length
  (log2,
    if jsGe errorCount (lookupKey th "critical") then
      some (ThresholdAlert.critical errorCount)
    else if jsGe errorCount (lookupKey th "warning") then
      some (ThresholdAlert.warning errorCount)
    else none)

/-- `ErrorHandler.setErrorThresholds`:
`this.errorThresholds = { ...this.errorThresholds, ...thresholds }`. -/
def setErrorThresholds (th overrides : List (String × Nat)) :
    List (String × Nat) :=
  spreadMerge th overrides

/-- The result object of `ErrorHandler.getErrorStatistics`. -/
structure ErrorStatistics where
  totalErrors : Nat
  errorTypes : List (String × Nat)
  errorContexts : List (String × Nat)
  recentErrors : List ErrorRecord

/-- `ErrorHandler.getErrorStatistics`: total count, per-type and
per-context counter tables built by a `forEach` over the log, and
`errorLog.slice(-10)` (the last up-to-10 records). -/
def getErrorStatistics (log : List ErrorRecord) : ErrorStatistics :=
  { totalErrors := log.length
    errorTypes := log.foldl (fun acc e => bump acc e.rtype) []
    errorContexts := log.foldl (fun acc e => bump acc e.context) []
    recentErrors := log.drop (log.length - 10) }

/-- The response object `handleApiError` inspects. -/
structure ApiResponse where
  status : Nat
  statusText : String
deriving DecidableEq

/-- `ErrorHandler.handleApiError`: for `status >= 400` it logs an
`ApiError` record (plus a screenshot side effect, not modelled) and
throws; otherwise it returns the response unchanged without touching the
log. The first component is the updated `errorLog`. -/
def handleApiError (th : List (String × Nat)) (log : List ErrorRecord)
    (response : ApiResponse) (context : String) :
    List ErrorRecord × Except String ApiResponse :=
  if 400 ≤ response.status then
    let msg := "API error: " ++ natToString response.status ++ " " ++ response.statusText
    ((logError th log ⟨"ApiError", context, msg⟩).1, Except.error msg)
  else
    (log, Except.ok response)

theorem getCount_bump (m : List (String × Nat)) (k j : String) :
    getCount (bump m k) j = getCount m j + (if k = j then 1 else 0) := by
  induction m with
  | nil =>
    by_cases h : k = j <;> simp [bump, getCount, h]
  | cons p rest ih =>
    obtain ⟨k2, v⟩ := p
    by_cases h2 : k2 = k
    · subst h2
      by_cases hj : k2 = j <;> simp [bump, getCount, hj]
    · by_cases hj : k2 = j
      · subst hj
        have hk : ¬ k = k2 := fun h => h2 h.symm
        simp [bump, getCount, h2, hk]
      · simp [bump, getCount, h2, hj, ih]

theorem getCount_foldl_bump (f : ErrorRecord → String) (log : List ErrorRecord)
    (m : List (String × Nat)) (j : String) :
    getCount (log.foldl (fun acc e => bump acc (f e)) m) j =
      getCount m j + log.countP (fun e => decide (f e = j)) := by
  induction log generalizing m with
  | nil => simp
  | cons e rest ih =>
    simp only [List.foldl_cons, ih, getCount_bump, List.countP_cons]
    by_cases h : f e = j
    · simp [h]
      omega
    · simp [h]

/-- C6: `getErrorStatistics` reports the total record count, per-type and
per-context counts matching the number of log records of each type and
context, and the most recent at-most-10 records (a suffix of the log);
on a log of one ElementNotFound and two TimeoutError records the type
table is exactly `{ElementNotFound: 1, TimeoutError: 2}`. -/
theorem getErrorStatistics_spec (log : List ErrorRecord) :
    (getErrorStatistics log).totalErrors = log.length ∧
    (∀ s, getCount (getErrorStatistics log).errorTypes s =
      log.countP (fun e => decide (e.rtype = s))) ∧
    (∀ s, getCount (getErrorStatistics log).errorContexts s =
      log.countP (fun e => decide (e.context = s))) ∧
    (getErrorStatistics log).recentErrors.length = min 10 log.length ∧
    log.take (log.length - 10) ++ (getErrorStatistics log).recentErrors = log ∧
    (getErrorStatistics [⟨"ElementNotFound", "", ""⟩, ⟨"TimeoutError", "", ""⟩,
        ⟨"TimeoutError", "", ""⟩]).errorTypes =
      [("ElementNotFound", 1), ("TimeoutError", 2)] := by
  refine ⟨rfl, ?_, ?_, ?_, ?_, by decide⟩
  · intro s
    simpa [getErrorStatistics, getCount] using
      getCount_foldl_bump (fun e => e.rtype) log [] s
  · intro s
    simpa [getErrorStatistics, getCount] using
      getCount_foldl_bump (fun e => e.context) log [] s
  · simp only [getErrorStatistics, List.length_drop]
    omega
  · exact List.take_append_drop (log.length - 10) log

/-- C5: `handleApiError` throws exactly when `response.status >= 400`,
appending one `ApiError` record (with the caller's context) to the log;
for any status below 400 it returns the response unchanged and appends
nothing. -/
theorem handleApiError_spec (th : List (String × Nat)) (log : List ErrorRecord)
    (response : ApiResponse) (context : String) :
    (400 ≤ response.status →
      handleApiError th log response context =
        (log ++ [⟨"ApiError", context,
            "API error: " ++ natToString response.status ++ " " ++ response.statusText⟩],
         Except.error ("API error: " ++ natToString response.status ++ " " ++
            response.statusText))) ∧
    (response.status < 400 →
      handleApiError th log response context = (log, Except.ok response)) := by
  constructor
  · intro h
    simp [handleApiError, h, logError]
  · intro h
    have h2 : ¬ 400 ≤ response.status := by omega
    simp [handleApiError, h2]

/-- C5 witness: a 404 response is rejected with `API error: 404 Not Found`
and logged as an `ApiError` record; a 200 response passes through with the
log untouched. -/
theorem handleApiError_spec_witness :
    handleApiError defaultErrorThresholds [] ⟨404, "Not Found"⟩ "apiTest" =
      ([⟨"ApiError", "apiTest", "API error: 404 Not Found"⟩],
       Except.error "API error: 404 Not Found") ∧
    handleApiError defaultErrorThresholds [] ⟨200, "OK"⟩ "apiTest" =
      ([], Except.ok ⟨200, "OK"⟩) := by
  constructor
  · have h := (handleApiError_spec defaultErrorThresholds []
      ⟨404, "Not Found"⟩ "apiTest").1 (by decide)
    rw [h]
    rfl
  · exact (handleApiError_spec defaultErrorThresholds []
      ⟨200, "OK"⟩ "apiTest").2 (by decide)

/-- C10: under the default thresholds (`critical = 5`, `warning = 10`)
the warning branch of `logError` is dead code: every call either emits
the critical-threshold message (when the new count is at least 5) or no
threshold message at all, never the warning one, since any count reaching
10 has already reached 5. -/
theorem logError_warning_unreachable (log : List ErrorRecord) (e : ErrorRecord) :
    (logError defaultErrorThresholds log e).2 =
        some (ThresholdAlert.critical (log.length + 1)) ∨
    (logError defaultErrorThresholds log e).2 = none := by
  have hc : lookupKey defaultErrorThresholds "critical" = some 5 := rfl
  have hw : lookupKey defaultErrorThresholds "warning" = some 10 := rfl
  simp only [logError, hc, hw, jsGe, List.length_append, List.length_cons,
    List.length_nil]
  by_cases h5 : 5 ≤ log.length + 1
  · left
    simp [h5]
  · right
    have h10 : ¬ 10 ≤ log.length + 1 := by omega
    simp [h5, h10]

/-! ## `ErrorHandler.retryOperation`

The retry loop is event-loop sequential: each attempt logs, invokes the
operation, and on failure either rejects (when `attempts >= maxRetries`)
or logs again and schedules the next attempt after the delay. The
embedding records that history as a trace of `cy.logInfo` messages and
operation invocations; the operation itself is a function from the
zero-based index of the attempt to its outcome. -/

/-- An observable step of `retryOperation`: an informational log line or
an invocation of the wrapped operation (`k` is the 1-based attempt
number, `attempts` at the moment of the call). -/
inductive RetryEvent where
  | info (msg : String)
  | invoke (k : Nat)
deriving DecidableEq

/-- Is the event an operation invocation? -/
def RetryEvent.isInvoke : RetryEvent → Bool
  | .invoke _ => true
  | .info _ => false

/-- The `cy.logInfo` line emitted at the top of each attempt. -/
def retryMsgStart (k maxRetries : Nat) : String :=
  "Retry attempt " ++ natToString k ++ "/" ++ natToString maxRetries

/-- The `cy.logInfo` line emitted after a non-final failed attempt. -/
def retryMsgFailed (k delay : Nat) : String :=
  "Retry attempt " ++ natToString k ++ " failed, retrying in " ++
    natToString delay ++ "ms"

/-- The message of the rejection after the final failed attempt. -/
def retryMsgExhausted (maxRetries : Nat) (e : String) : String :=
  "Operation failed after " ++ natToString maxRetries ++ " attempts: " ++ e

/-- What a finished `retryOperation` run looks like: the final value of
the `attempts` counter (equally, the number of invocations), the ordered
trace of events, and the settled promise. -/
structure RetryResult (α : Type) where
  attempts : Nat
  trace : List RetryEvent
  outcome : Except String α

/-- The recursive `attempt` closure of `retryOperation`, entered with the
current value of the `attempts` counter. -/
def retryOperationAux {α : Type} (op : Nat → Except String α)
    (maxRetries delay : Nat) (attempts : Nat) : RetryResult α :=
  match op attempts with
  | Except.ok r =>
    { attempts := attempts + 1
      trace := [RetryEvent.info (retryMsgStart (attempts + 1) maxRetries),
                RetryEvent.invoke (attempts + 1),
                RetryEvent.info "Operation succeeded on retry"]
      outcome := Except.ok r }
  | Except.error e =>
    if h : maxRetries ≤ attempts + 1 then
      { attempts := attempts + 1
        trace := [RetryEvent.info (retryMsgStart (attempts + 1) maxRetries),
                  RetryEvent.invoke (attempts + 1)]
        outcome := Except.error (retryMsgExhausted maxRetries e) }
    else
      let rest := retryOperationAux op maxRetries delay (attempts + 1)
      { attempts := rest.attempts
        trace := RetryEvent.info (retryMsgStart (attempts + 1) maxRetries) ::
                 RetryEvent.invoke (attempts + 1) ::
                 RetryEvent.info (retryMsgFailed (attempts + 1) delay) :: rest.trace
        outcome := rest.outcome }
termination_by maxRetries - attempts
decreasing_by omega

/-- `ErrorHandler.retryOperation(operation, maxRetries, delay)`. -/
def retryOperation {α : Type} (op : Nat → Except String α)
    (maxRetries delay : Nat) : RetryResult α :=
  retryOperationAux op maxRetries delay 0

theorem retryOperationAux_trace_head {α : Type} (op : Nat → Except String α)
    (maxRetries delay attempts : Nat) :
    ∃ tl, (retryOperationAux op maxRetries delay attempts).trace =
      RetryEvent.info (retryMsgStart (attempts + 1) maxRetries) ::
        RetryEvent.invoke (attempts + 1) :: tl := by
  rw [retryOperationAux]
  cases op attempts with
  | ok r => exact ⟨_, rfl⟩
  | error e =>
    by_cases h : maxRetries ≤ attempts + 1
    · simp only [h, dite_true]
      exact ⟨_, rfl⟩
    · simp only [h, dite_false]
      exact ⟨_, rfl⟩

theorem retryOperationAux_attempts_lower {α : Type} (op : Nat → Except String α)
    (maxRetries delay : Nat) (attempts : Nat) :
    attempts + 1 ≤ (retryOperationAux op maxRetries delay attempts).attempts := by
  induction attempts using retryOperationAux.induct op maxRetries delay with
  | case1 a r hop => rw [retryOperationAux]; simp [hop]
  | case2 a e hop hle => rw [retryOperationAux]; simp [hop, hle]
  | case3 a e hop hle ih =>
    rw [retryOperationAux]
    simp only [hop, hle, dite_false]
    omega

theorem retryOperationAux_attempts_upper {α : Type} (op : Nat → Except String α)
    (maxRetries delay : Nat) (attempts : Nat) :
    (retryOperationAux op maxRetries delay attempts).attempts ≤
      max maxRetries (attempts + 1) := by
  induction attempts using retryOperationAux.induct op maxRetries delay with
  | case1 a r hop => rw [retryOperationAux]; simp [hop]
  | case2 a e hop hle => rw [retryOperationAux]; simp [hop, hle]
  | case3 a e hop hle ih =>
    rw [retryOperationAux]
    simp only [hop, hle, dite_false]
    omega

theorem retryOperationAux_allfail {α : Type} (op : Nat → Except String α)
    (maxRetries delay : Nat) (hfail : ∀ k, ∃ e, op k = Except.error e)
    (attempts : Nat) :
    (retryOperationAux op maxRetries delay attempts).attempts =
      max maxRetries (attempts + 1) ∧
    ∃ e, op (max maxRetries (attempts + 1) - 1) = Except.error e ∧
      (retryOperationAux op maxRetries delay attempts).outcome =
        Except.error (retryMsgExhausted maxRetries e) := by
  induction attempts using retryOperationAux.induct op maxRetries delay with
  | case1 a r hop =>
    obtain ⟨e, he⟩ := hfail a
    rw [hop] at he
    cases he
  | case2 a e hop hle =>
    rw [retryOperationAux]
    simp only [hop, hle, dite_true]
    have hmax : max maxRetries (a + 1) = a + 1 := by omega
    refine ⟨by simp [hmax], e, ?_, by simp⟩
    rw [hmax]
    simpa using hop
  | case3 a e hop hle ih =>
    rw [retryOperationAux]
    simp only [hop, hle, dite_false]
    obtain ⟨ih1, e2, he2, ho2⟩ := ih
    have hmax : max maxRetries (a + 1 + 1) = max maxRetries (a + 1) := by omega
    rw [hmax] at ih1 he2
    exact ⟨by simpa using ih1, e2, he2, by simpa using ho2⟩

theorem retryOperationAux_countP {α : Type} (op : Nat → Except String α)
    (maxRetries delay : Nat) (attempts : Nat) :
    (retryOperationAux op maxRetries delay attempts).trace.countP
        RetryEvent.isInvoke =
      (retryOperationAux op maxRetries delay attempts).attempts - attempts := by
  induction attempts using retryOperationAux.induct op maxRetries delay with
  | case1 a r hop =>
    rw [retryOperationAux]
    simp [hop, List.countP_cons, RetryEvent.isInvoke]
  | case2 a e hop hle =>
    rw [retryOperationAux]
    simp [hop, hle, List.countP_cons, RetryEvent.isInvoke]
  | case3 a e hop hle ih =>
    have hlow := retryOperationAux_attempts_lower op maxRetries delay (a + 1)
    rw [retryOperationAux]
    simp only [hop, hle, dite_false]
    simp [List.countP_cons, RetryEvent.isInvoke, ih]
    omega

theorem retryOperationAux_ordered {α : Type} (op : Nat → Except String α)
    (maxRetries delay : Nat) (attempts : Nat) :
    ∀ k, attempts + 1 ≤ k →
      k + 1 ≤ (retryOperationAux op maxRetries delay attempts).attempts →
      Precedes (RetryEvent.invoke k) (RetryEvent.invoke (k + 1))
          (retryOperationAux op maxRetries delay attempts).trace ∧
      Precedes (RetryEvent.info (retryMsgFailed k delay)) (RetryEvent.invoke (k + 1))
          (retryOperationAux op maxRetries delay attempts).trace := by
  induction attempts using retryOperationAux.induct op maxRetries delay with
  | case1 a r hop =>
    rw [retryOperationAux]
    simp only [hop]
    intro k h1 h2
    omega
  | case2 a e hop hle =>
    rw [retryOperationAux]
    simp only [hop, hle, dite_true]
    intro k h1 h2
    omega
  | case3 a e hop hle ih =>
    rw [retryOperationAux]
    simp only [hop, hle, dite_false]
    intro k h1 h2
    obtain ⟨tl, htl⟩ := retryOperationAux_trace_head op maxRetries delay (a + 1)
    by_cases hk : k = a + 1
    · subst hk
      constructor
      · refine ⟨[RetryEvent.info (retryMsgStart (a + 1) maxRetries)],
          [RetryEvent.info (retryMsgFailed (a + 1) delay),
           RetryEvent.info (retryMsgStart (a + 1 + 1) maxRetries)], tl, ?_⟩
        simp [htl]
      · refine ⟨[RetryEvent.info (retryMsgStart (a + 1) maxRetries),
          RetryEvent.invoke (a + 1)],
          [RetryEvent.info (retryMsgStart (a + 1 + 1) maxRetries)], tl, ?_⟩
        simp [htl]
    · have hrec := ih k (by omega) h2
      have hlift : ∀ x y : RetryEvent,
          Precedes x y (retryOperationAux op maxRetries delay (a + 1)).trace →
          Precedes x y (RetryEvent.info (retryMsgStart (a + 1) maxRetries) ::
            RetryEvent.invoke (a + 1) ::
            RetryEvent.info (retryMsgFailed (a + 1) delay) ::
            (retryOperationAux op maxRetries delay (a + 1)).trace) := by
        intro x y hp
        exact Precedes.append_right
          [RetryEvent.info (retryMsgStart (a + 1) maxRetries),
           RetryEvent.invoke (a + 1),
           RetryEvent.info (retryMsgFailed (a + 1) delay)] hp
      exact ⟨hlift _ _ hrec.1, hlift _ _ hrec.2⟩

/-- C2 (amended: `maxAttempts ≥ 1`): `retryOperation` invokes the wrapped
operation at most `maxAttempts` times (the trace's invocation count equals
the final `attempts` counter), attempts happen strictly sequentially with
the informational retry log emitted before each subsequent attempt, and
when every attempt fails the operation is invoked exactly `maxAttempts`
times and the run rejects with the aggregate message carrying the attempt
count and the last underlying error. -/
theorem retryOperation_spec {α : Type} (op : Nat → Except String α)
    (maxRetries delay : Nat) (hN : 1 ≤ maxRetries) :
    (retryOperation op maxRetries delay).trace.countP RetryEvent.isInvoke =
      (retryOperation op maxRetries delay).attempts ∧
    (retryOperation op maxRetries delay).attempts ≤ maxRetries ∧
    (∀ k, 1 ≤ k → k + 1 ≤ (retryOperation op maxRetries delay).attempts →
      Precedes (RetryEvent.invoke k) (RetryEvent.invoke (k + 1))
          (retryOperation op maxRetries delay).trace ∧
      Precedes (RetryEvent.info (retryMsgFailed k delay))
          (RetryEvent.invoke (k + 1))
          (retryOperation op maxRetries delay).trace) ∧
    ((∀ k, ∃ e, op k = Except.error e) →
      (retryOperation op maxRetries delay).attempts = maxRetries ∧
      ∃ e, op (maxRetries - 1) = Except.error e ∧
        (retryOperation op maxRetries delay).outcome =
          Except.error ("Operation failed after " ++ natToString maxRetries ++
            " attempts: " ++ e)) := by
  have hmax : max maxRetries (0 + 1) = maxRetries := by omega
  refine ⟨?_, ?_, ?_, ?_⟩
  · have h := retryOperationAux_countP op maxRetries delay 0
    simpa [retryOperation] using h
  · have h := retryOperationAux_attempts_upper op maxRetries delay 0
    rw [hmax] at h
    exact h
  · intro k h1 h2
    exact retryOperationAux_ordered op maxRetries delay 0 k (by omega) h2
  · intro hfail
    have h := retryOperationAux_allfail op maxRetries delay hfail 0
    rw [hmax] at h
    exact ⟨h.1, h.2⟩

/-- C2 witness: with an operation that always fails, `maxAttempts = 3`
and a 7 ms delay, the run makes at most 3 invocations and, since every
attempt fails, exactly 3, rejecting with the aggregate message naming the
attempt count and the final error. -/
theorem retryOperation_spec_witness :
    (retryOperation (fun _ => (Except.error "boom" : Except String Unit)) 3 7).attempts ≤ 3 ∧
    (retryOperation (fun _ => (Except.error "boom" : Except String Unit)) 3 7).attempts = 3 ∧
    (retryOperation (fun _ => (Except.error "boom" : Except String Unit)) 3 7).outcome =
      Except.error "Operation failed after 3 attempts: boom" := by
  have h := retryOperation_spec (α := Unit) (fun _ => Except.error "boom") 3 7
    (by decide)
  have hfail := h.2.2.2 (fun k => ⟨"boom", rfl⟩)
  obtain ⟨e, he, ho⟩ := hfail.2
  have he2 : e = "boom" := by
    cases he
    rfl
  subst he2
  refine ⟨h.2.1, hfail.1, ?_⟩
  rw [ho]
  rfl

/-- C2 counterexample: with `maxAttempts = 0` the recursive `attempt`
closure still runs once before checking the bound, so the operation is
invoked once, violating the claimed "at most N invocations" at N = 0. -/
theorem retryOperation_zero_attempts_counterexample :
    (retryOperation (α := Unit) (fun _ => Except.error "boom") 0 1000).trace.countP
        RetryEvent.isInvoke = 1 ∧
    ¬ ((retryOperation (α := Unit) (fun _ => Except.error "boom") 0 1000).trace.countP
        RetryEvent.isInvoke ≤ 0) := by
  have hc := retryOperationAux_countP (α := Unit)
    (fun _ => Except.error "boom") 0 1000 0
  have ha := retryOperationAux_allfail (α := Unit)
    (fun _ => Except.error "boom") 0 1000 (fun k => ⟨"boom", rfl⟩) 0
  have h1 : (retryOperation (α := Unit) (fun _ => Except.error "boom") 0 1000).trace.countP
      RetryEvent.isInvoke = 1 := by
    have := ha.1
    simp only [retryOperation] at *
    omega
  exact ⟨h1, by omega⟩

/-! ## PerformanceMonitor (`TestDataManager.js`, second class) -/

/-- The `thresholds` object installed by the `PerformanceMonitor`
constructor (`memoryUsage` is `100 * 1024 * 1024`). -/
def defaultPerfThresholds : List (String × Nat) := [("pageLoadTime", 5000), ("apiResponseTime", 3000), ("loginTime", 10000), ("memoryUsage", 104857600)]

/-- `PerformanceMonitor.setThresholds`:
`this.thresholds = { ...this.thresholds, ...newThresholds }`. -/
def setThresholds (th overrides : List (String × Nat)) : List (String × Nat) :=
  spreadMerge th overrides

theorem lookupKey_isSome_append_left {α : Type} (l1 l2 : List (String × α))
    (k : String) (h : (lookupKey l1 k).isSome = true) :
    (lookupKey (l1 ++ l2) k).isSome = true := by
  induction l1 with
  | nil => simp [lookupKey] at h
  | cons p rest ih =>
    obtain ⟨k2, v⟩ := p
    by_cases hk : k2 = k
    · simp [lookupKey, hk]
    · simp only [lookupKey, hk, if_false, List.cons_append] at h ⊢
      exact ih h

theorem lookupKey_spreadMerge_isSome {α : Type} (old new : List (String × α))
    (k : String) (h : (lookupKey old k).isSome = true) :
    (lookupKey (spreadMerge old new) k).isSome = true := by
  have hmap : (lookupKey (old.map (fun p =>
      match lookupKey new p.1 with
      | some v => (p.1, v)
      | none => p)) k).isSome = true := by
    induction old with
    | nil => simp [lookupKey] at h
    | cons p rest ih =>
      obtain ⟨k2, v⟩ := p
      by_cases hk : k2 = k
      · subst hk
        cases hnew : lookupKey new k2 <;> simp [lookupKey, hnew]
      · simp only [lookupKey, hk, if_false] at h
        cases hnew : lookupKey new k2 <;>
          simpa [lookupKey, hnew, hk] using ih h
  exact lookupKey_isSome_append_left _ _ k hmap

/-- C7: starting from the constructor defaults, any sequence of
`setThresholds` / `setErrorThresholds` calls with arbitrary partial
override objects leaves every key of the default configuration defined:
spread-merge retains existing keys unless explicitly overridden, so the
threshold tables are never left partially undefined. -/
theorem thresholds_never_partially_undefined
    (perfOverrides errOverrides : List (List (String × Nat))) (k kE : String)
    (hk : (lookupKey defaultPerfThresholds k).isSome = true)
    (hkE : (lookupKey defaultErrorThresholds kE).isSome = true) :
    (lookupKey (perfOverrides.foldl setThresholds defaultPerfThresholds) k).isSome = true ∧
    (lookupKey (errOverrides.foldl setErrorThresholds defaultErrorThresholds) kE).isSome = true := by
  have hgen : ∀ (ovs : List (List (String × Nat))) (init : List (String × Nat))
      (key : String), (lookupKey init key).isSome = true →
      (lookupKey (ovs.foldl spreadMerge init) key).isSome = true := by
    intro ovs
    induction ovs with
    | nil => intro init key h; simpa using h
    | cons ov rest ih =>
      intro init key h
      exact ih (spreadMerge init ov) key (lookupKey_spreadMerge_isSome init ov key h)
  exact ⟨hgen perfOverrides defaultPerfThresholds k hk,
    hgen errOverrides defaultErrorThresholds kE hkE⟩

/-- C7 witness: after overriding `pageLoadTime`, adding a custom key, and
overriding `critical`, the untouched default keys `apiResponseTime` and
`warning` are still defined. -/
theorem thresholds_never_partially_undefined_witness :
    (lookupKey ([[("pageLoadTime", 1)], [("custom", 9)]].foldl setThresholds
      defaultPerfThresholds) "apiResponseTime").isSome = true ∧
    (lookupKey ([[("critical", 2)]].foldl setErrorThresholds
      defaultErrorThresholds) "warning").isSome = true :=
  thresholds_never_partially_undefined [[("pageLoadTime", 1)], [("custom", 9)]]
    [[("critical", 2)]] "apiResponseTime" "warning" (by decide) (by decide)

/-! ## `PerformanceMonitor.monitorConcurrentRequests`

The method loops `for (let i = 0; i < requests.length; i += maxConcurrent)`,
slicing out `batch = requests.slice(i, i + maxConcurrent)` and immediately
evaluating `batch.map(request => request())`; the `cy.wrap(Promise.all(...))`
command only enqueues a wait. The `for` loop itself is synchronous
JavaScript, so every factory is invoked during that initial synchronous
sweep, and the promise settle callbacks can only run afterwards. The
embedding therefore produces the trace of start events emitted by the
loop (in batch order) followed by the settle events in whatever order the
operations later complete. For `maxConcurrent = 0` the JS loop would not
terminate; the embedding returns no batches in that (unused) case. -/

/-- Start or settlement of the operation with the given index. -/
inductive CREvent where
  | start (i : Nat)
  | settle (i : Nat)
deriving DecidableEq

/-- The batch decomposition computed by `requests.slice(i, i + maxConcurrent)`
as `i` steps by `maxConcurrent`; the fuel argument only bounds the loop. -/
def chunkAux {α : Type} (k : Nat) : Nat → List α → List (List α)
  | 0, _ => []
  | _, [] => []
  | fuel + 1, l => l.take k :: chunkAux k fuel (l.drop k)

/-- Consecutive batches of size `k` (last one possibly shorter). -/
def chunk {α : Type} (k : Nat) (l : List α) : List (List α) :=
  if k = 0 then [] else chunkAux k l.length l

/-- The request indices of each batch for `n` request factories. -/
def monitorConcurrentRequests_batches (n maxConcurrent : Nat) : List (List Nat) :=
  chunk maxConcurrent (List.range n)

/-- The factory invocations performed by the synchronous `for` loop, in
the order the loop makes them. -/
def monitorConcurrentRequests_startEvents (n maxConcurrent : Nat) : List CREvent :=
  ((monitorConcurrentRequests_batches n maxConcurrent).flatten).map CREvent.start

/-- The observable event trace of one `monitorConcurrentRequests` run:
all starts happen during the synchronous loop, every settlement strictly
after it. -/
def monitorConcurrentRequests_trace (n maxConcurrent : Nat)
    (settleOrder : List Nat) : List CREvent :=
  monitorConcurrentRequests_startEvents n maxConcurrent ++
    settleOrder.map CREvent.settle

/-- C1 failing run: with 5 factories and `maxConcurrent = 2` the loop does
slice the indices into batches `[0,1]`, `[2,3]`, `[4]`, but operations 2
and 4 (batches 2 and 3) start before operation 0 of batch 1 has settled,
because `batch.map(request => request())` runs inside the synchronous
loop without awaiting the previous batch — contradicting the claimed
ordering guarantee that batch N+1 never starts before batch N settles. -/
theorem monitorConcurrentRequests_batch2_starts_before_batch1_settles :
    monitorConcurrentRequests_batches 5 2 = [[0, 1], [2, 3], [4]] ∧
    Precedes (CREvent.start 2) (CREvent.settle 0)
      (monitorConcurrentRequests_trace 5 2 [0, 1, 2, 3, 4]) ∧
    Precedes (CREvent.start 4) (CREvent.settle 0)
      (monitorConcurrentRequests_trace 5 2 [0, 1, 2, 3, 4]) := by
  refine ⟨by decide, ?_, ?_⟩
  · exact ⟨[CREvent.start 0, CREvent.start 1],
      [CREvent.start 3, CREvent.start 4],
      [CREvent.settle 1, CREvent.settle 2, CREvent.settle 3, CREvent.settle 4],
      by decide⟩
  · exact ⟨[CREvent.start 0, CREvent.start 1, CREvent.start 2, CREvent.start 3],
      [],
      [CREvent.settle 1, CREvent.settle 2, CREvent.settle 3, CREvent.settle 4],
      by decide⟩

/-! ## API command layer (`cypress/support/api-commands.js`) -/

/-- What `apiLogin` reads off the login response: the HTTP status,
`response.body.data?.token` and `response.headers?.authorization` (each
possibly absent). The request is issued with `failOnStatusCode: false`,
so the command itself never raises on a non-2xx status. -/
structure LoginResponse where
  status : Nat
  bodyDataToken : Option String
  headerAuthorization : Option String
deriving DecidableEq

/-- JS truthiness of a possibly-absent string (`undefined` and `""` are
falsy). -/
def jsTruthyStr : Option String → Bool
  | some s => decide (s ≠ "")
  | none => false

/-- The JS `a || b` on possibly-absent strings. -/
def jsOrStr (a b : Option String) : Option String :=
  if jsTruthyStr a then a else b

/-- `cy.apiLogin`: on status 200/201 it extracts
`body.data?.token || headers?.authorization` as the token, otherwise it
resolves to `{ token: null, response }` without raising. -/
def apiLogin (response : LoginResponse) : Option String × LoginResponse :=
  if response.status = 200 ∨ response.status = 201 then
    (jsOrStr response.bodyDataToken response.headerAuthorization, response)
  else
    (none, response)

/-- The destructured `options` argument of `cy.apiRequest` (defaults as in
the source). -/
structure ApiRequestInput where
  method : String
  url : String
  body : Option String
  headers : List (String × String)
  auth : Bool
  failOnStatusCode : Bool
  timeout : Nat

/-- The options object finally handed to `cy.request`. -/
structure RequestOptions where
  method : String
  url : String
  headers : List (String × String)
  failOnStatusCode : Bool
  timeout : Nat
  body : Option String
deriving DecidableEq

/-- The `requestOptions` object `apiRequest` builds before the
authentication step: `headers: { 'Content-Type': 'application/json',
...headers }` plus the caller's method/url/body and flags. -/
def buildRequestOptions (o : ApiRequestInput) : RequestOptions :=
  { method := o.method
    url := o.url
    headers := spreadMerge [("Content-Type", "application/json")] o.headers
    failOnStatusCode := o.failOnStatusCode
    timeout := o.timeout
    body := o.body }

/-- `cy.apiRequest`: when `auth` is set it first runs `apiLogin` (whose
observed response is the `loginResponse` parameter) and adds the
`Authorization` header only when the token is truthy; in every case it
then issues `cy.request` with the resulting options — the returned value
is exactly that options object. -/
def apiRequest (loginResponse : LoginResponse) (o : ApiRequestInput) :
    RequestOptions :=
  let requestOptions := buildRequestOptions o
  if o.auth then
    let token := (apiLogin loginResponse).1
    if jsTruthyStr token then
      { requestOptions with
          headers := setKey requestOptions.headers "Authorization"
            ("Bearer " ++ token.getD "") }
    else
      requestOptions
  else
    requestOptions

theorem lookupKey_filter_none {α : Type} (p : String × α → Bool)
    (l : List (String × α)) (k : String) (h : lookupKey l k = none) :
    lookupKey (l.filter p) k = none := by
  induction l with
  | nil => simp [lookupKey]
  | cons q rest ih =>
    obtain ⟨k2, v⟩ := q
    by_cases hk : k2 = k
    · simp [lookupKey, hk] at h
    · simp only [lookupKey, hk, if_false] at h
      by_cases hp : p (k2, v) <;> simp [List.filter, hp, lookupKey, hk, ih h]

theorem lookupKey_append_none {α : Type} (l1 l2 : List (String × α))
    (k : String) (h1 : lookupKey l1 k = none) (h2 : lookupKey l2 k = none) :
    lookupKey (l1 ++ l2) k = none := by
  induction l1 with
  | nil => simpa using h2
  | cons q rest ih =>
    obtain ⟨k2, v⟩ := q
    by_cases hk : k2 = k
    · simp [lookupKey, hk] at h1
    · simp only [lookupKey, hk, if_false] at h1
      simpa [lookupKey, hk] using ih h1

theorem lookupKey_spreadMerge_none {α : Type} (old new : List (String × α))
    (k : String) (h1 : lookupKey old k = none) (h2 : lookupKey new k = none) :
    lookupKey (spreadMerge old new) k = none := by
  have hmap : lookupKey (old.map (fun p =>
      match lookupKey new p.1 with
      | some v => (p.1, v)
      | none => p)) k = none := by
    induction old with
    | nil => simp [lookupKey]
    | cons p rest ih =>
      obtain ⟨k2, v⟩ := p
      by_cases hk : k2 = k
      · simp [lookupKey, hk] at h1
      · simp only [lookupKey, hk, if_false] at h1
        cases hnew : lookupKey new k2 <;>
          simpa [lookupKey, hnew, hk] using ih h1
  exact lookupKey_append_none _ _ k hmap (lookupKey_filter_none _ new k h2)

/-- C9: `apiLogin` never raises on failed authentication — for every
status other than 200/201 it resolves to `{ token: null, response }` —
and `apiRequest` with `auth` enabled then issues the underlying request
anyway: the options handed to `cy.request` carry no `Authorization`
header (provided the caller did not pass one) while keeping the caller's
method and url, so an unauthenticated request is sent silently. -/
theorem apiRequest_failed_login_spec (loginResponse : LoginResponse)
    (o : ApiRequestInput) (hauth : o.auth = true)
    (h200 : loginResponse.status ≠ 200) (h201 : loginResponse.status ≠ 201)
    (hcaller : lookupKey o.headers "Authorization" = none) :
    apiLogin loginResponse = (none, loginResponse) ∧
    lookupKey (apiRequest loginResponse o).headers "Authorization" = none ∧
    (apiRequest loginResponse o).method = o.method ∧
    (apiRequest loginResponse o).url = o.url := by
  have hlogin : apiLogin loginResponse = (none, loginResponse) := by
    simp [apiLogin, h200, h201]
  have hbase : lookupKey (buildRequestOptions o).headers "Authorization" = none := by
    refine lookupKey_spreadMerge_none _ _ _ ?_ hcaller
    simp [lookupKey]
  have happ : apiRequest loginResponse o = buildRequestOptions o := by
    simp [apiRequest, hauth, hlogin, jsTruthyStr]
  refine ⟨hlogin, ?_, ?_, ?_⟩
  · rw [happ]
    exact hbase
  · rw [happ]
    rfl
  · rw [happ]
    rfl

/-- C9 witness: a 401 login response yields a null token, and the
authenticated `GET` to `/web/index.php/api/v2/pim/employees` goes out
with only the `Content-Type` header — no `Authorization`. -/
theorem apiRequest_failed_login_spec_witness :
    apiLogin ⟨401, none, none⟩ = (none, ⟨401, none, none⟩) ∧
    lookupKey (apiRequest ⟨401, none, none⟩
      ⟨"GET", "/web/index.php/api/v2/pim/employees", none, [], true, false,
        10000⟩).headers "Authorization" = none := by
  have h := apiRequest_failed_login_spec ⟨401, none, none⟩
    ⟨"GET", "/web/index.php/api/v2/pim/employees", none, [], true, false, 10000⟩
    rfl (by decide) (by decide) rfl
  exact ⟨h.1, h.2.1⟩

end CyprusAutomation
